import Mathlib

/-!
Verification of the tailscale-dns-proxy DNS interception proxy.

The development shallowly embeds the Go source:
* `internal/iplist` — IP family filtering and string-list parsing;
* `internal/proxy/handler.go` — `doInterception`, the post-upstream part of
  `intercept`, and `resolveUpstream`;
* `internal/resolvers/kubernetes.go` — the two-index Kubernetes lookup
  (`GetTailscaleIPsByService`, `GetTailscaleIPsByExternalIP`) and `Start`.

Machine-level details are abstracted as follows: a `net.IP` is modelled by a
family flag plus an abstract numeric address (the handler only ever inspects
the family via `To4() != nil`); the DNS wire format is modelled structurally
(the source delegates encoding to the miekg/dns collaborator); the concurrent
per-answer fan-out of `doInterception` (an errgroup) is modelled as a
deterministic left-to-right fold — the properties proved below are invariant
under the schedule (they concern whether *some* unit of work failed, and the
multiset of collected addresses); network exchanges and informer cache sync
outcomes are inputs to the functions that consume them.
-/

namespace TSDNSProxy

/-! ### internal/iplist

`net.IP` carries its family; `ip.To4() != nil` is the IPv4 test used by
`FilterIPv4Only` / `FilterIPv6Only`. -/

/-- Model of `net.IP`: the family (`v4 = true` iff `To4() != nil`) together
with an abstract numeric address value. -/
structure IP where
  v4 : Bool
  addr : Nat
deriving DecidableEq, Repr

/-- `iplist.FilterIPv4Only`: keep the IPs with `To4() != nil`. -/
def FilterIPv4Only (ips : List IP) : List IP :=
  ips.filter (fun ip => ip.v4)

/-- `iplist.FilterIPv6Only`: keep the IPs with `To4() == nil`. -/
def FilterIPv6Only (ips : List IP) : List IP :=
  ips.filter (fun ip => !ip.v4)

/-! ### DNS message model (miekg/dns collaborator surface used by the core) -/

/-- `dns.TypeA`. -/
def typeA : Nat := 1
/-- `dns.TypeAAAA`. -/
def typeAAAA : Nat := 28
/-- `dns.ClassINET`. -/
def classINET : Nat := 1

/-- A question section entry (`dns.Question`). -/
structure Question where
  name : String
  qtype : Nat
  qclass : Nat
deriving DecidableEq, Repr

/-- `dns.RR_Header`. -/
structure RRHeader where
  name : String
  rrtype : Nat
  rclass : Nat
  ttl : Nat
deriving DecidableEq, Repr

/-- A resource record: the core only distinguishes `*dns.A`, `*dns.AAAA`, and
everything else (opaque). -/
inductive RR where
  | a (hdr : RRHeader) (ip : IP)
  | aaaa (hdr : RRHeader) (ip : IP)
  | other (data : Nat)
deriving DecidableEq, Repr

/-- The record type of an answer record (`RR.Header().Rrtype`); opaque records
carry some type that is neither A nor AAAA, modelled as 0. -/
def RR.rtype : RR → Nat
  | .a _ _ => typeA
  | .aaaa _ _ => typeAAAA
  | .other _ => 0

/-- A DNS message, restricted to the parts the core reads or writes. -/
structure Msg where
  id : Nat
  response : Bool
  question : List Question
  answer : List RR
deriving DecidableEq, Repr

/-- `msg.SetReply(req)`: copy reply metadata from the request (id, question),
mark as response, empty answer section. -/
def Msg.setReply (req : Msg) : Msg :=
  { id := req.id, response := true, question := req.question, answer := [] }

/-! ### internal/proxy/handler.go — interception -/

/-- The error outcomes of `doInterception` (the handler's sentinel errors,
plus a wrapped resolver error). -/
inductive InterceptError where
  | notInterceptableQuestion
  | answerNotIPRecord
  | noTailscaleIPs
  | noTailscaleIPsAfterFiltering
  | resolverError (e : String)
deriving DecidableEq, Repr

/-- A `resolvers.Resolver`: `GetTailscaleIPsByExternalIP`, abstract here (the
Kubernetes implementation is embedded separately below). -/
def Resolver : Type := IP → Except String (List IP)

/-- One unit of work of `doInterception`'s per-answer fan-out (the body of the
`g.Go` closure): resolve the answer's address to tailscale IPs, keep only the
answer's own family, and fail on an empty result or a non-address record. -/
def resolveAnswerIPs (resolver : Resolver) : RR → Except InterceptError (List IP)
  | .a _ ipv =>
    match resolver ipv with
    | .error e => .error (.resolverError e)
    | .ok ips =>
      let ips := FilterIPv4Only ips
      if ips.length = 0 then .error .noTailscaleIPs else .ok ips
  | .aaaa _ ipv =>
    match resolver ipv with
    | .error e => .error (.resolverError e)
    | .ok ips =>
      let ips := FilterIPv6Only ips
      if ips.length = 0 then .error .noTailscaleIPs else .ok ips
  | .other _ => .error .answerNotIPRecord

/-- The fan-out plus aggregation loop of `doInterception`: every answer's unit
of work must succeed, and the resolved IP lists are concatenated.  The
errgroup schedule only permutes the concatenation order and selects which of
several failures is reported; this embedding fixes the left-to-right order. -/
def collectTailscaleIPs (resolver : Resolver) : List RR → Except InterceptError (List IP)
  | [] => .ok []
  | rr :: rest =>
    match resolveAnswerIPs resolver rr with
    | .error e => .error e
    | .ok ips =>
      match collectTailscaleIPs resolver rest with
      | .error e => .error e
      | .ok restIps => .ok (ips ++ restIps)

/-- The `makeRR` closure for an A question: name from the question, type A,
class INET, TTL 300. -/
def makeARR (q : Question) (ipv : IP) : RR :=
  .a { name := q.name, rrtype := typeA, rclass := classINET, ttl := 300 } ipv

/-- The `makeRR` closure for an AAAA question. -/
def makeAAAARR (q : Question) (ipv : IP) : RR :=
  .aaaa { name := q.name, rrtype := typeAAAA, rclass := classINET, ttl := 300 } ipv

/-- `handler.doInterception`: eligibility check (exactly one question, of type
A or AAAA), per-answer resolution, aggregate family filter matching the
question type, and assembly of the rewritten reply. -/
def doInterception (resolver : Resolver) (req resp : Msg) : Except InterceptError Msg :=
  match req.question with
  | [q] =>
    if q.qtype = typeA ∨ q.qtype = typeAAAA then
      match collectTailscaleIPs resolver resp.answer with
      | .error e => .error e
      | .ok tsIPs =>
        let msg := Msg.setReply req
        let filtered := if q.qtype = typeA then FilterIPv4Only tsIPs else FilterIPv6Only tsIPs
        let newAnswers :=
          filtered.map (fun ipv => if q.qtype = typeA then makeARR q ipv else makeAAAARR q ipv)
        if filtered.length = 0 then
          .error .noTailscaleIPsAfterFiltering
        else
          .ok { msg with answer := newAnswers }
    else .error .notInterceptableQuestion
  | _ => .error .notInterceptableQuestion

/-- The tail of `handler.intercept` once the upstream exchange has succeeded
with `resp`: on any `doInterception` error the verbatim upstream response is
written; otherwise the rewritten response is written. -/
def interceptReply (resolver : Resolver) (req resp : Msg) : Msg :=
  match doInterception resolver req resp with
  | .error _ => resp
  | .ok newResp => newResp

/-! ### internal/proxy/handler.go — resolveUpstream -/

/-- The outcome of one `client.ExchangeContext` call, classified the way the
source classifies its error (`errors.Is(err, errTotalUpstreamTimeoutExceeded)`
is checked first, then `errors.Is(err, context.DeadlineExceeded)`): a
response, the shared total deadline elapsing mid-exchange, this upstream's own
timeout, or any other error. -/
inductive ExchangeResult where
  | ok (resp : Msg)
  | totalTimeout
  | indivTimeout
  | err (e : String)
deriving DecidableEq, Repr

/-- The error outcomes of `resolveUpstream`. -/
inductive UpstreamError where
  | totalTimeout
  | allUpstreamsTimedOut
  | exchange (e : String)
deriving DecidableEq, Repr

/-- Whether the error wraps `context.DeadlineExceeded` (both
`errTotalUpstreamTimeoutExceeded` and the "all upstreams timed out" error are
built with `%w context.DeadlineExceeded`; a non-timeout exchange error is not). -/
def UpstreamError.wrapsDeadlineExceeded : UpstreamError → Bool
  | .totalTimeout => true
  | .allUpstreamsTimedOut => true
  | .exchange _ => false

/-- `handler.resolveUpstream`: try each configured upstream in order; a
response or a total-timeout or an unknown error stops the loop, an individual
timeout moves on to the next upstream; an exhausted list yields the
"all upstreams timed out" error.  `exch` gives the outcome of the exchange
with each upstream for the fixed request. -/
def resolveUpstream (exch : String → ExchangeResult) : List String → Except UpstreamError Msg
  | [] => .error .allUpstreamsTimedOut
  | u :: rest =>
    match exch u with
    | .ok r => .ok r
    | .totalTimeout => .error .totalTimeout
    | .indivTimeout => resolveUpstream exch rest
    | .err e => .error (.exchange e)

/-- `resolveUpstream` instrumented with the list of upstreams actually
contacted (in order), to express "never contacts C"-style properties. -/
def resolveUpstreamTrace (exch : String → ExchangeResult) :
    List String → Except UpstreamError Msg × List String
  | [] => (.error .allUpstreamsTimedOut, [])
  | u :: rest =>
    match exch u with
    | .ok r => (.ok r, [u])
    | .totalTimeout => (.error .totalTimeout, [u])
    | .indivTimeout =>
      let p := resolveUpstreamTrace exch rest
      (p.1, u :: p.2)
    | .err e => (.error (.exchange e), [u])

/-- The instrumented loop computes the same result as `resolveUpstream`. -/
theorem resolveUpstream_eq_trace (exch : String → ExchangeResult) (us : List String) :
    resolveUpstream exch us = (resolveUpstreamTrace exch us).1 := by
  induction us with
  | nil => rfl
  | cons u rest ih =>
    simp only [resolveUpstream, resolveUpstreamTrace]
    cases exch u <;> simp [ih]

/-! ### internal/resolvers/kubernetes.go

The informer caches are modelled by the lists of watched objects they hold;
`ByIndex` is modelled by filtering those lists with the repository's own index
functions (`indexByServicePath`, `indexByExternalIp`), or by the injected
internal failure when the underlying index query fails.  `encoding/json` and
`net.ParseIP` are external collaborators, abstracted as data
(`JsonPayload`) and as a parameter (`parseIP`) respectively. -/

/-- `resolvers.makeServicePath`. -/
def makeServicePath (ns : String) (name : String) : String :=
  ns ++ "/" ++ name

/-- Label key `tailscale.com/parent-resource`. -/
def labelTailscaleParentResource : String := "tailscale.com/parent-resource"
/-- Label key `tailscale.com/parent-resource-ns`. -/
def labelTailscaleParentResourceNs : String := "tailscale.com/parent-resource-ns"
/-- Label key `tailscale.com/parent-resource-type`. -/
def labelTailscaleParentResourceType : String := "tailscale.com/parent-resource-type"
/-- Secret data key `device_ips`. -/
def tailscaleSecretDataDeviceIps : String := "device_ips"
/-- `typeService = "svc"`. -/
def typeService : String := "svc"

/-- The JSON payload stored under a Secret's `device_ips` data key, as seen
through `encoding/json`: either a well-formed string list or malformed data. -/
inductive JsonPayload where
  | strList (xs : List String)
  | malformed (raw : String)
deriving DecidableEq, Repr

/-- `json.Unmarshal` of a `device_ips` payload into `[]string`. -/
def unmarshalStringList : JsonPayload → Except String (List String)
  | .strList xs => .ok xs
  | .malformed raw => .error raw

/-- A watched `corev1.Secret`, restricted to what the resolver reads: its
labels and the optional `device_ips` data entry. -/
structure Secret where
  labels : List (String × String)
  deviceIps : Option JsonPayload
deriving DecidableEq, Repr

/-- A watched `corev1.Service`, restricted to what the resolver reads:
namespace, name, and the ingress IP strings of `Status.LoadBalancer.Ingress`
(already projected to their `.IP` fields; entries absent in the status are
modelled as `""`, which the index function skips). -/
structure Service where
  ns : String
  name : String
  ingressIPs : List String
deriving DecidableEq, Repr

/-- Label lookup in a Secret's label map. -/
def lookupLabel (labels : List (String × String)) (key : String) : Option String :=
  (labels.find? (fun p => p.1 = key)).map (fun p => p.2)

/-- The `indexByServicePath` index function: a secret is indexed under
`ns/name` when its three tailscale parent labels are present and the parent
type is `svc`. -/
def indexByServicePathKeys (s : Secret) : List String :=
  match lookupLabel s.labels labelTailscaleParentResource with
  | none => []
  | some parentResource =>
    match lookupLabel s.labels labelTailscaleParentResourceNs with
    | none => []
    | some parentResourceNs =>
      match lookupLabel s.labels labelTailscaleParentResourceType with
      | none => []
      | some parentResourceType =>
        if parentResourceType = typeService then
          [makeServicePath parentResourceNs parentResource]
        else []

/-- The `indexByExternalIp` index function: a service is indexed under each
non-empty ingress IP string of its load-balancer status. -/
def indexByExternalIpKeys (svc : Service) : List String :=
  svc.ingressIPs.filter (fun ip => ip ≠ "")

/-- Errors surfaced by the Kubernetes resolver's lookups. -/
inductive K8sError where
  | indexQueryFailure (e : String)
  | unmarshalFailure (e : String)
  | invalidIP (s : String)
deriving DecidableEq, Repr

/-- The `KubernetesResolver`'s observable cache state: the watched secrets
and services, plus an injected failure for each informer's internal index
query (`GetIndexer().ByIndex` returning an error). -/
structure KubernetesResolver where
  secrets : List Secret
  services : List Service
  secretIndexFailure : Option String
  serviceIndexFailure : Option String
deriving DecidableEq, Repr

/-- `secretInformer.GetIndexer().ByIndex(indexByServicePath, key)`. -/
def byIndexSecrets (r : KubernetesResolver) (key : String) : Except K8sError (List Secret) :=
  match r.secretIndexFailure with
  | some e => .error (.indexQueryFailure e)
  | none => .ok (r.secrets.filter (fun s => key ∈ indexByServicePathKeys s))

/-- `serviceInformer.GetIndexer().ByIndex(indexByExternalIp, key)`. -/
def byIndexServices (r : KubernetesResolver) (key : String) : Except K8sError (List Service) :=
  match r.serviceIndexFailure with
  | some e => .error (.indexQueryFailure e)
  | none => .ok (r.services.filter (fun svc => key ∈ indexByExternalIpKeys svc))

/-- The scan loop of `GetTailscaleIPsByService`: skip secrets without the
`device_ips` key, fail on unmarshal errors, return the first non-empty list,
and fall through to `nil, nil`. -/
def scanSecrets : List Secret → Except K8sError (List String)
  | [] => .ok []
  | s :: rest =>
    match s.deviceIps with
    | none => scanSecrets rest
    | some payload =>
      match unmarshalStringList payload with
      | .error e => .error (.unmarshalFailure e)
      | .ok ips => if ips.length > 0 then .ok ips else scanSecrets rest

/-- `KubernetesResolver.GetTailscaleIPsByService`. -/
def GetTailscaleIPsByService (r : KubernetesResolver) (serviceNamespace serviceName : String) :
    Except K8sError (List String) :=
  match byIndexSecrets r (makeServicePath serviceNamespace serviceName) with
  | .error e => .error e
  | .ok secrets => scanSecrets secrets

/-- `iplist.ParseIPs`, with `net.ParseIP` abstracted as `parseIP` (`none`
models a nil result, surfaced as `InvalidIPError`). -/
def ParseIPs (parseIP : String → Option IP) : List String → Except K8sError (List IP)
  | [] => .ok []
  | s :: rest =>
    match parseIP s with
    | none => .error (.invalidIP s)
    | some ip =>
      match ParseIPs parseIP rest with
      | .error e => .error e
      | .ok parsed => .ok (ip :: parsed)

/-- The scan loop of `GetTailscaleIPsByExternalIP`: per matching service,
propagate lookup errors, parse and return the first non-empty IP list, and
fall through to `nil, nil`. -/
def scanServices (r : KubernetesResolver) (parseIP : String → Option IP) :
    List Service → Except K8sError (List IP)
  | [] => .ok []
  | svc :: rest =>
    match GetTailscaleIPsByService r svc.ns svc.name with
    | .error e => .error e
    | .ok ips => if ips.length > 0 then ParseIPs parseIP ips else scanServices r parseIP rest

/-- `KubernetesResolver.GetTailscaleIPsByExternalIP`; `ipString` abstracts
`net.IP.String()`. -/
def GetTailscaleIPsByExternalIP (r : KubernetesResolver) (parseIP : String → Option IP)
    (ipString : IP → String) (externalIP : IP) : Except K8sError (List IP) :=
  match byIndexServices r (ipString externalIP) with
  | .error e => .error e
  | .ok services => scanServices r parseIP services

/-! ### internal/resolvers/kubernetes.go — Start / cache sync -/

/-- `resolvers.CacheSyncError`, naming the informer cache type that failed to
sync (`reflect.Type` rendered abstractly as a string). -/
structure CacheSyncError where
  cache : String
deriving DecidableEq, Repr

/-- The outcome of one factory's `Start` + `WaitForCacheSync` under the
caller-supplied cancellation: for each informer cache type, whether its
initial synchronization completed (`false` covers both a sync failure and
cancellation cutting the wait short). -/
structure InformerFactory where
  syncResults : List (String × Bool)
deriving DecidableEq, Repr

/-- `resolvers.startAndWaitForCacheSync`: one `CacheSyncError` per cache that
failed to sync, joined (`errors.Join` is modelled by the list of collected
errors, `[]` standing for a nil error). -/
def startAndWaitForCacheSync (factory : InformerFactory) : List CacheSyncError :=
  (factory.syncResults.filter (fun p => !p.2)).map (fun p => ⟨p.1⟩)

/-- `KubernetesResolver.Start`: join of the two factories' sync errors. -/
def Start (secretFactory serviceFactory : InformerFactory) : List CacheSyncError :=
  startAndWaitForCacheSync secretFactory ++ startAndWaitForCacheSync serviceFactory

/-! ### Helper lemmas -/

/-- If any answer's unit of work fails, the whole fan-out fails. -/
theorem collect_error_of_mem (resolver : Resolver) {l : List RR} {rr : RR}
    (hmem : rr ∈ l) (hfail : ∃ e0, resolveAnswerIPs resolver rr = .error e0) :
    ∃ e, collectTailscaleIPs resolver l = .error e := by
  induction l with
  | nil => cases hmem
  | cons hd tl ih =>
    rcases List.mem_cons.mp hmem with heq | htl
    · subst heq
      obtain ⟨e0, he0⟩ := hfail
      exact ⟨e0, by simp [collectTailscaleIPs, he0]⟩
    · obtain ⟨e, he⟩ := ih htl
      simp only [collectTailscaleIPs]
      cases hhd : resolveAnswerIPs resolver hd with
      | error e1 => exact ⟨e1, rfl⟩
      | ok ips => exact ⟨e, by simp [he]⟩

/-- An eligible request makes `doInterception` propagate a fan-out failure. -/
theorem doInterception_error_of_collect_error (resolver : Resolver) {req resp : Msg}
    {q : Question} {e : InterceptError}
    (hq : req.question = [q]) (ht : q.qtype = typeA ∨ q.qtype = typeAAAA)
    (hcol : collectTailscaleIPs resolver resp.answer = .error e) :
    doInterception resolver req resp = .error e := by
  simp [doInterception, hq, ht, hcol]

/-- On any `doInterception` error the handler writes the upstream response. -/
theorem interceptReply_of_error {resolver : Resolver} {req resp : Msg} {e : InterceptError}
    (h : doInterception resolver req resp = .error e) :
    interceptReply resolver req resp = resp := by
  simp [interceptReply, h]

/-- A successfully rewritten response never has an empty answer section. -/
theorem doInterception_ok_answer_ne_nil {resolver : Resolver} {req resp newResp : Msg}
    (h : doInterception resolver req resp = .ok newResp) : newResp.answer ≠ [] := by
  unfold doInterception at h
  match hq : req.question with
  | [] => rw [hq] at h; cases h
  | [q] =>
    rw [hq] at h
    by_cases ht : q.qtype = typeA ∨ q.qtype = typeAAAA
    · simp only [ht, if_true] at h
      cases hcol : collectTailscaleIPs resolver resp.answer with
      | error e => rw [hcol] at h; cases h
      | ok tsIPs =>
        rw [hcol] at h
        simp only at h
        by_cases hlen :
            (if q.qtype = typeA then FilterIPv4Only tsIPs else FilterIPv6Only tsIPs).length = 0
        · simp [hlen] at h
        · simp only [hlen, if_false, Except.ok.injEq] at h
          subst h
          simp only [ne_eq, List.map_eq_nil_iff]
          intro hnil
          exact hlen (by rw [hnil]; rfl)
    · simp [ht] at h
  | q1 :: q2 :: rest => rw [hq] at h; cases h

/-! ### Claims -/

/-- C1: for an eligible single-question A/AAAA query, if any per-answer unit
of work fails — because an answer resolves to zero overlay addresses after
same-family filtering, or because an answer is not an A/AAAA record — then
`doInterception` returns an error and the handler replies with the verbatim
upstream response, never a partially rewritten one. -/
theorem c1_failed_unit_falls_back (resolver : Resolver) (req resp : Msg) (q : Question) (rr : RR)
    (hq : req.question = [q]) (ht : q.qtype = typeA ∨ q.qtype = typeAAAA)
    (hmem : rr ∈ resp.answer)
    (hfail : resolveAnswerIPs resolver rr = .error .noTailscaleIPs ∨
             resolveAnswerIPs resolver rr = .error .answerNotIPRecord) :
    (∃ e, doInterception resolver req resp = .error e) ∧
    interceptReply resolver req resp = resp := by
  have hfail' : ∃ e0, resolveAnswerIPs resolver rr = .error e0 := by
    rcases hfail with h | h
    · exact ⟨_, h⟩
    · exact ⟨_, h⟩
  obtain ⟨e, he⟩ := collect_error_of_mem resolver hmem hfail'
  have hdo := doInterception_error_of_collect_error resolver hq ht he
  exact ⟨⟨e, hdo⟩, interceptReply_of_error hdo⟩

/-- C1 witness: an A query whose single answer resolves to zero overlay
addresses falls back to the upstream response. -/
theorem c1_failed_unit_falls_back_witness :
    interceptReply (fun _ => Except.ok [])
      (Msg.mk 7 false [Question.mk "app.example.com." typeA classINET] [])
      (Msg.mk 7 true [Question.mk "app.example.com." typeA classINET]
        [RR.a (RRHeader.mk "app.example.com." typeA classINET 60) (IP.mk true 100)]) =
      Msg.mk 7 true [Question.mk "app.example.com." typeA classINET]
        [RR.a (RRHeader.mk "app.example.com." typeA classINET 60) (IP.mk true 100)] :=
  (c1_failed_unit_falls_back (fun _ => Except.ok []) _ _
    (Question.mk "app.example.com." typeA classINET)
    (RR.a (RRHeader.mk "app.example.com." typeA classINET 60) (IP.mk true 100))
    rfl (Or.inl rfl) (by simp) (Or.inl rfl)).2

/-- C3: a query without exactly one question, or whose single question is
neither A nor AAAA, is never intercepted: `doInterception` rejects it for any
resolver (no resolution is attempted) and the client gets the upstream
response unmodified. -/
theorem c3_ineligible_query_not_intercepted (req resp : Msg)
    (h : req.question.length ≠ 1 ∨
         ∃ q, req.question = [q] ∧ q.qtype ≠ typeA ∧ q.qtype ≠ typeAAAA) :
    ∀ resolver : Resolver,
      doInterception resolver req resp = .error .notInterceptableQuestion ∧
      interceptReply resolver req resp = resp := by
  intro resolver
  have hdo : doInterception resolver req resp = .error .notInterceptableQuestion := by
    rcases h with hlen | ⟨q, hq, hA, hAAAA⟩
    · match hq : req.question with
      | [] => simp [doInterception, hq]
      | [q] => rw [hq] at hlen; simp at hlen
      | q1 :: q2 :: rest => simp [doInterception, hq]
    · have ht : ¬(q.qtype = typeA ∨ q.qtype = typeAAAA) := by
        rintro (h1 | h2)
        · exact hA h1
        · exact hAAAA h2
      simp [doInterception, hq, ht]
  exact ⟨hdo, interceptReply_of_error hdo⟩

/-- C3 witness: a two-question query is returned unmodified. -/
theorem c3_ineligible_query_not_intercepted_witness :
    doInterception (fun _ => Except.ok [IP.mk true 1])
      (Msg.mk 1 false [Question.mk "a." typeA classINET, Question.mk "b." typeA classINET] [])
      (Msg.mk 1 true [] [RR.a (RRHeader.mk "a." typeA classINET 60) (IP.mk true 9)]) =
      .error .notInterceptableQuestion ∧
    interceptReply (fun _ => Except.ok [IP.mk true 1])
      (Msg.mk 1 false [Question.mk "a." typeA classINET, Question.mk "b." typeA classINET] [])
      (Msg.mk 1 true [] [RR.a (RRHeader.mk "a." typeA classINET 60) (IP.mk true 9)]) =
      Msg.mk 1 true [] [RR.a (RRHeader.mk "a." typeA classINET 60) (IP.mk true 9)] :=
  c3_ineligible_query_not_intercepted
    (Msg.mk 1 false [Question.mk "a." typeA classINET, Question.mk "b." typeA classINET] [])
    (Msg.mk 1 true [] [RR.a (RRHeader.mk "a." typeA classINET 60) (IP.mk true 9)])
    (Or.inl (by decide))
    (fun _ => Except.ok [IP.mk true 1])

/-- C9: an eligible single-question A/AAAA query whose upstream response has
no answer records aborts interception with the after-filtering "no addresses"
error and the handler replies with the verbatim upstream response; moreover a
rewritten response never has an empty answer section. -/
theorem c9_empty_answers_fall_back (resolver : Resolver) (req resp : Msg) (q : Question)
    (hq : req.question = [q]) (ht : q.qtype = typeA ∨ q.qtype = typeAAAA)
    (hempty : resp.answer = []) :
    doInterception resolver req resp = .error .noTailscaleIPsAfterFiltering ∧
    interceptReply resolver req resp = resp ∧
    ∀ req2 resp2 newResp : Msg,
      doInterception resolver req2 resp2 = .ok newResp → newResp.answer ≠ [] := by
  have hdo : doInterception resolver req resp = .error .noTailscaleIPsAfterFiltering := by
    have hcol : collectTailscaleIPs resolver resp.answer = .ok [] := by
      rw [hempty]; rfl
    rcases ht with hA | hAAAA
    · simp [doInterception, hq, hA, hcol, FilterIPv4Only]
    · have : q.qtype = typeA ∨ q.qtype = typeAAAA := Or.inr hAAAA
      simp [doInterception, hq, this, hcol, hAAAA, FilterIPv4Only, FilterIPv6Only]
  exact ⟨hdo, interceptReply_of_error hdo,
    fun _ _ _ h => doInterception_ok_answer_ne_nil h⟩

/-- C9 witness: an AAAA query with an empty upstream answer section. -/
theorem c9_empty_answers_fall_back_witness :
    doInterception (fun _ => Except.ok [IP.mk false 1])
      (Msg.mk 2 false [Question.mk "x." typeAAAA classINET] [])
      (Msg.mk 2 true [Question.mk "x." typeAAAA classINET] []) =
      .error .noTailscaleIPsAfterFiltering ∧
    interceptReply (fun _ => Except.ok [IP.mk false 1])
      (Msg.mk 2 false [Question.mk "x." typeAAAA classINET] [])
      (Msg.mk 2 true [Question.mk "x." typeAAAA classINET] []) =
      Msg.mk 2 true [Question.mk "x." typeAAAA classINET] [] :=
  ⟨(c9_empty_answers_fall_back (fun _ => Except.ok [IP.mk false 1]) _ _
      (Question.mk "x." typeAAAA classINET) rfl (Or.inr rfl) rfl).1,
   (c9_empty_answers_fall_back (fun _ => Except.ok [IP.mk false 1]) _ _
      (Question.mk "x." typeAAAA classINET) rfl (Or.inr rfl) rfl).2.1⟩

/-- A successful unit of work yields a non-empty list whose members have the
family of the answer record it came from. -/
theorem resolveAnswerIPs_ok_facts {resolver : Resolver} {rr : RR} {ips : List IP}
    (h : resolveAnswerIPs resolver rr = .ok ips) :
    ips ≠ [] ∧ (rr.rtype = typeA → ∀ ip ∈ ips, ip.v4 = true) ∧
    (rr.rtype = typeAAAA → ∀ ip ∈ ips, ip.v4 = false) := by
  match rr with
  | .a hdr ipv =>
    simp only [resolveAnswerIPs] at h
    cases hres : resolver ipv with
    | error e => rw [hres] at h; cases h
    | ok raw =>
      rw [hres] at h
      simp only at h
      by_cases hlen : (FilterIPv4Only raw).length = 0
      · simp [hlen] at h
      · simp only [hlen, if_false, Except.ok.injEq] at h
        subst h
        refine ⟨fun hnil => hlen (by rw [hnil]; rfl), fun _ ip hip => ?_, fun habs => ?_⟩
        · exact (List.mem_filter.mp hip).2
        · exact absurd habs (by simp [RR.rtype, typeA, typeAAAA])
  | .aaaa hdr ipv =>
    simp only [resolveAnswerIPs] at h
    cases hres : resolver ipv with
    | error e => rw [hres] at h; cases h
    | ok raw =>
      rw [hres] at h
      simp only at h
      by_cases hlen : (FilterIPv6Only raw).length = 0
      · simp [hlen] at h
      · simp only [hlen, if_false, Except.ok.injEq] at h
        subst h
        refine ⟨fun hnil => hlen (by rw [hnil]; rfl), fun habs => ?_, fun _ ip hip => ?_⟩
        · exact absurd habs (by simp [RR.rtype, typeA, typeAAAA])
        · have := (List.mem_filter.mp hip).2
          simpa using this
  | .other d => simp [resolveAnswerIPs] at h

/-- When every unit of work succeeds and every answer has record type `t`,
the fan-out succeeds with a concatenation of per-answer results: non-empty
when there was at least one answer, and uniformly of `t`'s family. -/
theorem collect_ok_family (resolver : Resolver) (t : Nat) (l : List RR)
    (hty : ∀ rr ∈ l, rr.rtype = t)
    (hok : ∀ rr ∈ l, ∃ ips, resolveAnswerIPs resolver rr = .ok ips) :
    ∃ ips, collectTailscaleIPs resolver l = .ok ips ∧
      (∀ ip ∈ ips, (t = typeA → ip.v4 = true) ∧ (t = typeAAAA → ip.v4 = false)) ∧
      (l ≠ [] → ips ≠ []) := by
  induction l with
  | nil => exact ⟨[], rfl, by simp, by simp⟩
  | cons hd tl ih =>
    obtain ⟨ips0, h0⟩ := hok hd (List.mem_cons_self hd tl)
    obtain ⟨ne0, hA0, hAAAA0⟩ := resolveAnswerIPs_ok_facts h0
    have hthd : hd.rtype = t := hty hd (List.mem_cons_self hd tl)
    obtain ⟨ips1, h1, hfam1, _⟩ :=
      ih (fun rr hm => hty rr (List.mem_cons_of_mem hd hm))
         (fun rr hm => hok rr (List.mem_cons_of_mem hd hm))
    refine ⟨ips0 ++ ips1, ?_, ?_, fun _ => ?_⟩
    · simp [collectTailscaleIPs, h0, h1]
    · intro ip hip
      rcases List.mem_append.mp hip with hm | hm
      · exact ⟨fun htA => hA0 (hthd.trans htA) ip hm,
               fun htAAAA => hAAAA0 (hthd.trans htAAAA) ip hm⟩
      · exact hfam1 ip hm
    · simp [ne0]

/-- C2 counterexample input: an A question. -/
def cexC2Req : Msg := Msg.mk 7 false [Question.mk "app.example.com." typeA classINET] []

/-- C2 counterexample input: the upstream answer is an AAAA record (a family
not matching the question). -/
def cexC2Answer : RR :=
  RR.aaaa (RRHeader.mk "app.example.com." typeAAAA classINET 60) (IP.mk false 1)

/-- C2 counterexample input: the upstream response carrying `cexC2Answer`. -/
def cexC2Resp : Msg := Msg.mk 7 true [Question.mk "app.example.com." typeA classINET] [cexC2Answer]

/-- C2 counterexample input: the resolver maps every address to one IPv6
overlay address, so the (AAAA) answer resolves to one same-family address. -/
def cexC2Resolver : Resolver := fun _ => .ok [IP.mk false 2]

/-- C2 counterexample: a single-question A query whose only upstream answer is
an AAAA record that resolves to one same-family (IPv6) overlay address.  Every
unit of work succeeds with a non-empty same-family result, yet no rewritten
response is produced: the aggregate question-family filter empties the list,
`doInterception` fails, and the handler replies with the verbatim upstream
response — which still carries the original non-overlay address. -/
theorem c2_full_rewrite_counterexample :
    cexC2Req.question = [Question.mk "app.example.com." typeA classINET] ∧
    cexC2Resp.answer = [cexC2Answer] ∧
    resolveAnswerIPs cexC2Resolver cexC2Answer = .ok [IP.mk false 2] ∧
    doInterception cexC2Resolver cexC2Req cexC2Resp = .error .noTailscaleIPsAfterFiltering ∧
    interceptReply cexC2Resolver cexC2Req cexC2Resp = cexC2Resp :=
  ⟨rfl, rfl, rfl, rfl, rfl⟩

/-- C2 (amended): for an eligible single-question A/AAAA query, if the
upstream response has at least one answer record, every answer's record type
matches the question's type, and every answer resolves to at least one
same-family overlay address, then the rewritten response contains exactly one
answer record per resolved overlay address — each built by the question-type
`makeRR` (carrying the question's name, the question's record type, and TTL
300) and carrying only the resolved overlay addresses, so none of the
original (non-overlay) addresses appear. -/
theorem c2_full_rewrite (resolver : Resolver) (req resp : Msg) (q : Question)
    (hq : req.question = [q]) (ht : q.qtype = typeA ∨ q.qtype = typeAAAA)
    (hne : resp.answer ≠ [])
    (hty : ∀ rr ∈ resp.answer, rr.rtype = q.qtype)
    (hok : ∀ rr ∈ resp.answer, ∃ ips, resolveAnswerIPs resolver rr = .ok ips) :
    ∃ ips newResp,
      collectTailscaleIPs resolver resp.answer = .ok ips ∧ ips ≠ [] ∧
      doInterception resolver req resp = .ok newResp ∧
      interceptReply resolver req resp = newResp ∧
      newResp.answer =
        ips.map (fun ipv => if q.qtype = typeA then makeARR q ipv else makeAAAARR q ipv) ∧
      (∀ rr ∈ newResp.answer, ∃ ipv, ipv ∈ ips ∧
        rr = (if q.qtype = typeA then makeARR q ipv else makeAAAARR q ipv)) := by
  obtain ⟨ips, hcol, hfam, hnem⟩ := collect_ok_family resolver q.qtype resp.answer hty hok
  have hips : ips ≠ [] := hnem hne
  have hfilter : (if q.qtype = typeA then FilterIPv4Only ips else FilterIPv6Only ips) = ips := by
    rcases ht with hA | hAAAA
    · simp only [hA, if_true, FilterIPv4Only]
      exact List.filter_eq_self.mpr (fun ip hm => by simp [(hfam ip hm).1 hA])
    · have hnotA : ¬(q.qtype = typeA) := by
        rw [hAAAA]; simp [typeA, typeAAAA]
      simp only [hnotA, if_false, FilterIPv6Only]
      exact List.filter_eq_self.mpr (fun ip hm => by simp [(hfam ip hm).2 hAAAA])
  have hlen : ¬((if q.qtype = typeA then FilterIPv4Only ips else FilterIPv6Only ips).length = 0) := by
    rw [hfilter]
    simpa using hips
  have hdo : doInterception resolver req resp =
      .ok { Msg.setReply req with
        answer := ips.map (fun ipv => if q.qtype = typeA then makeARR q ipv else makeAAAARR q ipv) } := by
    simp only [doInterception, hq, ht, if_true, hcol]
    rw [if_neg hlen, hfilter]
  refine ⟨ips, _, hcol, hips, hdo, by simp [interceptReply, hdo], rfl, ?_⟩
  intro rr hm
  simp only [List.mem_map] at hm
  obtain ⟨ipv, hmem, hrr⟩ := hm
  exact ⟨ipv, hmem, hrr.symm⟩

/-- C2 (amended) witness: the spec's example scenario — `app.example.com A`
answered upstream with one A record whose address maps to one IPv4 overlay
address — is rewritten to exactly that overlay address. -/
theorem c2_full_rewrite_witness :
    interceptReply
      (fun ip => if ip = IP.mk true 100 then Except.ok [IP.mk true 200] else Except.ok [])
      (Msg.mk 7 false [Question.mk "app.example.com." typeA classINET] [])
      (Msg.mk 7 true [Question.mk "app.example.com." typeA classINET]
        [RR.a (RRHeader.mk "app.example.com." typeA classINET 60) (IP.mk true 100)]) =
      Msg.mk 7 true [Question.mk "app.example.com." typeA classINET]
        [RR.a (RRHeader.mk "app.example.com." typeA classINET 300) (IP.mk true 200)] := by
  obtain ⟨ips, newResp, hcol, hips, hdo, hreply, hans, _⟩ :=
    c2_full_rewrite
      (fun ip => if ip = IP.mk true 100 then Except.ok [IP.mk true 200] else Except.ok [])
      (Msg.mk 7 false [Question.mk "app.example.com." typeA classINET] [])
      (Msg.mk 7 true [Question.mk "app.example.com." typeA classINET]
        [RR.a (RRHeader.mk "app.example.com." typeA classINET 60) (IP.mk true 100)])
      (Question.mk "app.example.com." typeA classINET)
      rfl (Or.inl rfl) (by simp)
      (by intro rr hm; simp at hm; subst hm; rfl)
      (by intro rr hm; simp at hm; subst hm; exact ⟨[IP.mk true 200], rfl⟩)
  have hconc : doInterception
      (fun ip => if ip = IP.mk true 100 then Except.ok [IP.mk true 200] else Except.ok [])
      (Msg.mk 7 false [Question.mk "app.example.com." typeA classINET] [])
      (Msg.mk 7 true [Question.mk "app.example.com." typeA classINET]
        [RR.a (RRHeader.mk "app.example.com." typeA classINET 60) (IP.mk true 100)]) =
      .ok (Msg.mk 7 true [Question.mk "app.example.com." typeA classINET]
        [RR.a (RRHeader.mk "app.example.com." typeA classINET 300) (IP.mk true 200)]) := rfl
  rw [hreply]
  exact Except.ok.inj (hdo.symm.trans hconc)

/-- The record is an A record carrying an IPv4 address. -/
def RR.isIPv4Address : RR → Bool
  | .a _ ipv => ipv.v4
  | _ => false

/-- The record is an AAAA record carrying an IPv6 address. -/
def RR.isIPv6Address : RR → Bool
  | .aaaa _ ipv => !ipv.v4
  | _ => false

/-- C6: a successfully rewritten response for an A query contains only A
records carrying IPv4 addresses, and for an AAAA query only AAAA records
carrying IPv6 addresses, for every resolver — including resolvers returning
mixed-family overlay addresses for some external address (the per-answer
filter and the aggregate question-family filter both apply). -/
theorem c6_family_purity (resolver : Resolver) (req resp newResp : Msg) (q : Question)
    (hq : req.question = [q])
    (hok : doInterception resolver req resp = .ok newResp) :
    (q.qtype = typeA → newResp.answer.all RR.isIPv4Address = true) ∧
    (q.qtype = typeAAAA → newResp.answer.all RR.isIPv6Address = true) := by
  unfold doInterception at hok
  rw [hq] at hok
  by_cases ht : q.qtype = typeA ∨ q.qtype = typeAAAA
  · simp only [ht, if_true] at hok
    cases hcol : collectTailscaleIPs resolver resp.answer with
    | error e => rw [hcol] at hok; cases hok
    | ok tsIPs =>
      rw [hcol] at hok
      simp only at hok
      by_cases hlen :
          (if q.qtype = typeA then FilterIPv4Only tsIPs else FilterIPv6Only tsIPs).length = 0
      · simp [hlen] at hok
      · simp only [hlen, if_false, Except.ok.injEq] at hok
        subst hok
        constructor
        · intro hA
          simp only [hA, if_true, List.all_eq_true]
          intro rr hm
          simp only [List.mem_map] at hm
          obtain ⟨ipv, hmem, hrr⟩ := hm
          have hv4 : ipv.v4 = true := by
            have := (List.mem_filter.mp hmem).2
            simpa using this
          rw [← hrr]
          simp [makeARR, RR.isIPv4Address, hv4]
        · intro hAAAA
          have hnotA : ¬(q.qtype = typeA) := by
            rw [hAAAA]; simp [typeA, typeAAAA]
          simp only [hnotA, if_false, List.all_eq_true]
          intro rr hm
          simp only [List.mem_map] at hm
          obtain ⟨ipv, hmem, hrr⟩ := hm
          have hv6 : ipv.v4 = false := by
            have := (List.mem_filter.mp hmem).2
            simpa using this
          rw [← hrr]
          simp [makeAAAARR, RR.isIPv6Address, hv6]
  · simp [ht] at hok

/-- C6 witness: an A query against a resolver returning mixed-family results
yields a rewrite whose answers are all IPv4 A records. -/
theorem c6_family_purity_witness :
    (Msg.mk 7 true [Question.mk "app.example.com." typeA classINET]
      [RR.a (RRHeader.mk "app.example.com." typeA classINET 300)
        (IP.mk true 200)]).answer.all RR.isIPv4Address = true :=
  (c6_family_purity (fun _ => Except.ok [IP.mk true 200, IP.mk false 3])
    (Msg.mk 7 false [Question.mk "app.example.com." typeA classINET] [])
    (Msg.mk 7 true [Question.mk "app.example.com." typeA classINET]
      [RR.a (RRHeader.mk "app.example.com." typeA classINET 60) (IP.mk true 100)])
    (Msg.mk 7 true [Question.mk "app.example.com." typeA classINET]
      [RR.a (RRHeader.mk "app.example.com." typeA classINET 300) (IP.mk true 200)])
    (Question.mk "app.example.com." typeA classINET)
    rfl rfl).1 rfl

/-- Upstreams that individually time out are skipped: the loop continues past
them, contacting them in order. -/
theorem trace_skips_indiv_timeouts (exch : String → ExchangeResult) (pre rest : List String)
    (hpre : ∀ x ∈ pre, exch x = .indivTimeout) :
    resolveUpstreamTrace exch (pre ++ rest) =
      ((resolveUpstreamTrace exch rest).1, pre ++ (resolveUpstreamTrace exch rest).2) := by
  induction pre with
  | nil => simp
  | cons u tl ih =>
    have hu : exch u = .indivTimeout := hpre u (List.mem_cons_self u tl)
    simp only [List.cons_append, resolveUpstreamTrace, hu, List.append_eq]
    rw [ih (fun x hx => hpre x (List.mem_cons_of_mem u hx))]

/-- When every upstream individually times out, the loop returns the
"all upstreams timed out" error. -/
theorem resolveUpstream_all_indiv (exch : String → ExchangeResult) (us : List String)
    (h : ∀ x ∈ us, exch x = .indivTimeout) :
    resolveUpstream exch us = .error .allUpstreamsTimedOut := by
  induction us with
  | nil => rfl
  | cons u tl ih =>
    have hu : exch u = .indivTimeout := h u (List.mem_cons_self u tl)
    simp only [resolveUpstream, hu]
    exact ih (fun x hx => h x (List.mem_cons_of_mem u hx))

/-- C4: if the shared total deadline elapses during some upstream's exchange
(after any number of individual timeouts), no further upstream is contacted
and the total-timeout error is returned; and if every upstream in the list
individually times out, the distinct "all upstreams timed out" error is
returned. -/
theorem c4_total_timeout_distinction (exch : String → ExchangeResult)
    (pre post us : List String) (u : String)
    (hpre : ∀ x ∈ pre, exch x = .indivTimeout)
    (hu : exch u = .totalTimeout)
    (hall : ∀ x ∈ us, exch x = .indivTimeout) :
    resolveUpstreamTrace exch (pre ++ u :: post) = (.error .totalTimeout, pre ++ [u]) ∧
    resolveUpstream exch (pre ++ u :: post) = .error .totalTimeout ∧
    resolveUpstream exch us = .error .allUpstreamsTimedOut ∧
    UpstreamError.allUpstreamsTimedOut ≠ UpstreamError.totalTimeout := by
  have htr : resolveUpstreamTrace exch (u :: post) = (.error .totalTimeout, [u]) := by
    simp [resolveUpstreamTrace, hu]
  have h1 : resolveUpstreamTrace exch (pre ++ u :: post) = (.error .totalTimeout, pre ++ [u]) := by
    rw [trace_skips_indiv_timeouts exch pre (u :: post) hpre, htr]
  refine ⟨h1, ?_, resolveUpstream_all_indiv exch us hall, fun h => UpstreamError.noConfusion h⟩
  rw [resolveUpstream_eq_trace, h1]

/-- C4 witness: upstreams `["a", "b", "c"]` where `a` individually times out
and the total deadline elapses while contacting `b`; and upstreams
`["a", "c"]` where both individually time out. -/
theorem c4_total_timeout_distinction_witness :
    resolveUpstreamTrace
      (fun s => if s = "b" then .totalTimeout else .indivTimeout) ["a", "b", "c"] =
      (.error .totalTimeout, ["a", "b"]) ∧
    resolveUpstream
      (fun s => if s = "b" then .totalTimeout else .indivTimeout) ["a", "b", "c"] =
      .error .totalTimeout ∧
    resolveUpstream
      (fun s => if s = "b" then .totalTimeout else .indivTimeout) ["a", "c"] =
      .error .allUpstreamsTimedOut ∧
    UpstreamError.allUpstreamsTimedOut ≠ UpstreamError.totalTimeout :=
  c4_total_timeout_distinction
    (fun s => if s = "b" then .totalTimeout else .indivTimeout)
    ["a"] ["c"] ["a", "c"] "b" (by decide) (by decide) (by decide)

/-- C5: upstream selection is order-first.  For upstreams `[A, B, C]` where
A's exchange individually times out and B's succeeds, the result is B's
response and C is never contacted; in general the first successful exchange
after a run of individual timeouts short-circuits the loop, and a non-timeout
exchange failure aborts immediately without contacting the remaining
upstreams. -/
theorem c5_order_first_selection (exch : String → ExchangeResult) (a b c u1 u2 e : String)
    (r r2 : Msg) (pre1 pre2 post1 post2 : List String)
    (hA : exch a = .indivTimeout) (hB : exch b = .ok r)
    (hpre1 : ∀ x ∈ pre1, exch x = .indivTimeout) (hu1 : exch u1 = .ok r2)
    (hpre2 : ∀ x ∈ pre2, exch x = .indivTimeout) (hu2 : exch u2 = .err e) :
    resolveUpstreamTrace exch [a, b, c] = (.ok r, [a, b]) ∧
    resolveUpstream exch [a, b, c] = .ok r ∧
    resolveUpstreamTrace exch (pre1 ++ u1 :: post1) = (.ok r2, pre1 ++ [u1]) ∧
    resolveUpstreamTrace exch (pre2 ++ u2 :: post2) = (.error (.exchange e), pre2 ++ [u2]) := by
  have h1 : resolveUpstreamTrace exch [a, b, c] = (.ok r, [a, b]) := by
    simp [resolveUpstreamTrace, hA, hB]
  refine ⟨h1, by rw [resolveUpstream_eq_trace, h1], ?_, ?_⟩
  · rw [trace_skips_indiv_timeouts exch pre1 (u1 :: post1) hpre1]
    simp [resolveUpstreamTrace, hu1]
  · rw [trace_skips_indiv_timeouts exch pre2 (u2 :: post2) hpre2]
    simp [resolveUpstreamTrace, hu2]

/-- C5 witness: a concrete exchange where `a` times out, `b` answers, `x`
fails hard. -/
theorem c5_order_first_selection_witness :
    resolveUpstreamTrace
      (fun s => if s = "b" then .ok (Msg.mk 1 true [] [])
        else if s = "x" then .err "boom" else .indivTimeout) ["a", "b", "c"] =
      (.ok (Msg.mk 1 true [] []), ["a", "b"]) ∧
    resolveUpstream
      (fun s => if s = "b" then .ok (Msg.mk 1 true [] [])
        else if s = "x" then .err "boom" else .indivTimeout) ["a", "b", "c"] =
      .ok (Msg.mk 1 true [] []) ∧
    resolveUpstreamTrace
      (fun s => if s = "b" then .ok (Msg.mk 1 true [] [])
        else if s = "x" then .err "boom" else .indivTimeout) (["a"] ++ "b" :: ["c"]) =
      (.ok (Msg.mk 1 true [] []), ["a"] ++ ["b"]) ∧
    resolveUpstreamTrace
      (fun s => if s = "b" then .ok (Msg.mk 1 true [] [])
        else if s = "x" then .err "boom" else .indivTimeout) (["a"] ++ "x" :: ["c"]) =
      (.error (.exchange "boom"), ["a"] ++ ["x"]) :=
  c5_order_first_selection
    (fun s => if s = "b" then .ok (Msg.mk 1 true [] [])
      else if s = "x" then .err "boom" else .indivTimeout)
    "a" "b" "c" "b" "x" "boom" (Msg.mk 1 true [] []) (Msg.mk 1 true [] [])
    ["a"] ["a"] ["c"] ["c"]
    (by decide) (by decide) (by decide) (by decide) (by decide) (by decide)

/-- C10: with an empty configured upstream list the loop body never runs — no
upstream is contacted — and `resolveUpstream` returns the "all upstreams
timed out" error (which wraps deadline-exceeded), for every request. -/
theorem c10_empty_upstream_list (exch : String → ExchangeResult) :
    resolveUpstreamTrace exch [] = (.error .allUpstreamsTimedOut, []) ∧
    resolveUpstream exch [] = .error .allUpstreamsTimedOut ∧
    UpstreamError.allUpstreamsTimedOut.wrapsDeadlineExceeded = true :=
  ⟨rfl, rfl, rfl⟩

/-- Scanning secrets that either lack the `device_ips` key or carry an empty
address list falls through to `nil, nil`. -/
theorem scanSecrets_ok_empty (l : List Secret)
    (h : ∀ s ∈ l, s.deviceIps = none ∨ s.deviceIps = some (.strList [])) :
    scanSecrets l = .ok [] := by
  induction l with
  | nil => rfl
  | cons s rest ih =>
    have ihrest := ih (fun s' hs' => h s' (List.mem_cons_of_mem s hs'))
    rcases h s (List.mem_cons_self s rest) with hnone | hempty
    · simp [scanSecrets, hnone, ihrest]
    · simp [scanSecrets, hempty, unmarshalStringList, ihrest]

/-- Scanning services whose lookups all come back empty falls through to
`nil, nil`. -/
theorem scanServices_ok_empty (r : KubernetesResolver) (parseIP : String → Option IP)
    (svcs : List Service)
    (h : ∀ svc ∈ svcs, GetTailscaleIPsByService r svc.ns svc.name = .ok []) :
    scanServices r parseIP svcs = .ok [] := by
  induction svcs with
  | nil => rfl
  | cons svc rest ih =>
    have ihrest := ih (fun svc' hs' => h svc' (List.mem_cons_of_mem svc hs'))
    simp [scanServices, h svc (List.mem_cons_self svc rest), ihrest]

/-- `ParseIPs` succeeds when every address string parses. -/
theorem ParseIPs_ok (parseIP : String → Option IP) (xs : List String)
    (h : ∀ str ∈ xs, ∃ ip, parseIP str = some ip) :
    ∃ parsed, ParseIPs parseIP xs = .ok parsed := by
  induction xs with
  | nil => exact ⟨[], rfl⟩
  | cons x rest ih =>
    obtain ⟨ip, hip⟩ := h x (List.mem_cons_self x rest)
    obtain ⟨parsed, hps⟩ := ih (fun s hs => h s (List.mem_cons_of_mem x hs))
    exact ⟨ip :: parsed, by simp [ParseIPs, hip, hps]⟩

/-- Scanning secrets whose payloads are all well-formed string lists cannot
error, and a non-empty result is some scanned secret's own list. -/
theorem scanSecrets_wf (l : List Secret)
    (h : ∀ s ∈ l, ∀ payload, s.deviceIps = some payload →
      ∃ xs, payload = JsonPayload.strList xs) :
    ∃ ips, scanSecrets l = .ok ips ∧
      (ips = [] ∨ ∃ s, s ∈ l ∧ s.deviceIps = some (.strList ips)) := by
  induction l with
  | nil => exact ⟨[], rfl, Or.inl rfl⟩
  | cons s rest ih =>
    obtain ⟨ips1, h1, hprov1⟩ := ih (fun s' hs' => h s' (List.mem_cons_of_mem s hs'))
    cases hdev : s.deviceIps with
    | none =>
      refine ⟨ips1, by simp [scanSecrets, hdev, h1], ?_⟩
      rcases hprov1 with hnil | ⟨s', hs', hdev'⟩
      · exact Or.inl hnil
      · exact Or.inr ⟨s', List.mem_cons_of_mem s hs', hdev'⟩
    | some payload =>
      obtain ⟨xs, hxs⟩ := h s (List.mem_cons_self s rest) payload hdev
      subst hxs
      by_cases hlen : xs.length > 0
      · refine ⟨xs, by simp [scanSecrets, hdev, unmarshalStringList, hlen], ?_⟩
        exact Or.inr ⟨s, List.mem_cons_self s rest, hdev⟩
      · refine ⟨ips1, by simp [scanSecrets, hdev, unmarshalStringList, hlen, h1], ?_⟩
        rcases hprov1 with hnil | ⟨s', hs', hdev'⟩
        · exact Or.inl hnil
        · exact Or.inr ⟨s', List.mem_cons_of_mem s hs', hdev'⟩

/-- Scanning services cannot error when the secret index works, every watched
payload is a well-formed string list, and every listed address parses. -/
theorem scanServices_wf (r : KubernetesResolver) (parseIP : String → Option IP)
    (hsec : r.secretIndexFailure = none)
    (hwf : ∀ s ∈ r.secrets, ∀ payload, s.deviceIps = some payload →
      ∃ xs, payload = JsonPayload.strList xs)
    (hparse : ∀ s ∈ r.secrets, ∀ xs, s.deviceIps = some (JsonPayload.strList xs) →
      ∀ str ∈ xs, ∃ ip, parseIP str = some ip)
    (svcs : List Service) :
    ∃ ips, scanServices r parseIP svcs = .ok ips := by
  induction svcs with
  | nil => exact ⟨[], rfl⟩
  | cons svc rest ih =>
    obtain ⟨ips0, h0, hprov⟩ := scanSecrets_wf
      (r.secrets.filter (fun s => makeServicePath svc.ns svc.name ∈ indexByServicePathKeys s))
      (fun s hs => hwf s (List.mem_of_mem_filter hs))
    have hserv : GetTailscaleIPsByService r svc.ns svc.name = .ok ips0 := by
      unfold GetTailscaleIPsByService byIndexSecrets
      rw [hsec]
      exact h0
    by_cases hlen : ips0.length > 0
    · rcases hprov with hnil | ⟨s, hsmem, hdev⟩
      · rw [hnil] at hlen; simp at hlen
      · obtain ⟨parsed, hps⟩ := ParseIPs_ok parseIP ips0
          (hparse s (List.mem_of_mem_filter hsmem) ips0 hdev)
        exact ⟨parsed, by simp [scanServices, hserv, hlen, hps]⟩
    · obtain ⟨ips1, h1⟩ := ih
      exact ⟨ips1, by simp [scanServices, hserv, hlen, h1]⟩

/-- C7: the two-step Address Index lookup returns an empty result and no
error whenever no service is indexed under the external address, or every
matching service's matching secrets are absent, lack the `device_ips` key, or
carry an empty address list; and it cannot return an error unless an internal
index query fails or some watched secret's address payload is malformed (the
JSON is not a string list, or a listed address string does not parse). -/
theorem c7_lookup_error_discipline (r : KubernetesResolver) (parseIP : String → Option IP)
    (ipString : IP → String) (externalIP : IP) :
    (r.serviceIndexFailure = none →
     r.secretIndexFailure = none →
     (∀ svc ∈ r.services, ipString externalIP ∈ indexByExternalIpKeys svc →
       ∀ s ∈ r.secrets, makeServicePath svc.ns svc.name ∈ indexByServicePathKeys s →
         s.deviceIps = none ∨ s.deviceIps = some (.strList [])) →
     GetTailscaleIPsByExternalIP r parseIP ipString externalIP = .ok []) ∧
    (r.serviceIndexFailure = none →
     r.secretIndexFailure = none →
     (∀ s ∈ r.secrets, ∀ payload, s.deviceIps = some payload →
       ∃ xs, payload = JsonPayload.strList xs) →
     (∀ s ∈ r.secrets, ∀ xs, s.deviceIps = some (JsonPayload.strList xs) →
       ∀ str ∈ xs, ∃ ip, parseIP str = some ip) →
     ∃ ips, GetTailscaleIPsByExternalIP r parseIP ipString externalIP = .ok ips) := by
  constructor
  · intro hsvc hsec hcond
    unfold GetTailscaleIPsByExternalIP byIndexServices
    rw [hsvc]
    apply scanServices_ok_empty
    intro svc hm
    have hmem : svc ∈ r.services := List.mem_of_mem_filter hm
    have hkey : ipString externalIP ∈ indexByExternalIpKeys svc := by
      have := (List.mem_filter.mp hm).2
      simpa using this
    unfold GetTailscaleIPsByService byIndexSecrets
    rw [hsec]
    apply scanSecrets_ok_empty
    intro s hs
    have hsmem : s ∈ r.secrets := List.mem_of_mem_filter hs
    have hskey : makeServicePath svc.ns svc.name ∈ indexByServicePathKeys s := by
      have := (List.mem_filter.mp hs).2
      simpa using this
    exact hcond svc hmem hkey s hsmem hskey
  · intro hsvc hsec hwf hparse
    obtain ⟨ips, h⟩ := scanServices_wf r parseIP hsec hwf hparse
      (r.services.filter (fun svc => ipString externalIP ∈ indexByExternalIpKeys svc))
    refine ⟨ips, ?_⟩
    unfold GetTailscaleIPsByExternalIP byIndexServices
    rw [hsvc]
    exact h

/-- C7 witness: the spec's second example scenario — a matching service whose
secret carries an empty `device_ips` list — yields the empty result with no
error. -/
theorem c7_lookup_error_discipline_witness :
    GetTailscaleIPsByExternalIP
      (KubernetesResolver.mk
        [Secret.mk
          [(labelTailscaleParentResource, "app"), (labelTailscaleParentResourceNs, "ns"),
           (labelTailscaleParentResourceType, "svc")]
          (some (.strList []))]
        [Service.mk "ns" "app" ["203.0.113.5"]]
        none none)
      (fun _ => none) (fun _ => "203.0.113.5") (IP.mk true 5) = .ok [] :=
  (c7_lookup_error_discipline
    (KubernetesResolver.mk
      [Secret.mk
        [(labelTailscaleParentResource, "app"), (labelTailscaleParentResourceNs, "ns"),
         (labelTailscaleParentResourceType, "svc")]
        (some (.strList []))]
      [Service.mk "ns" "app" ["203.0.113.5"]]
      none none)
    (fun _ => none) (fun _ => "203.0.113.5") (IP.mk true 5)).1 rfl rfl (by decide)

/-- C8: `Start` returns a nil (empty) aggregate error exactly when every
informer cache of both factories reported a successful initial sync, and the
aggregate error names exactly the cache types that failed to sync. -/
theorem c8_start_sync_aggregation (secretFactory serviceFactory : InformerFactory) :
    (Start secretFactory serviceFactory = [] ↔
      ∀ p ∈ secretFactory.syncResults ++ serviceFactory.syncResults, p.2 = true) ∧
    ∀ c : String,
      CacheSyncError.mk c ∈ Start secretFactory serviceFactory ↔
        ∃ p ∈ secretFactory.syncResults ++ serviceFactory.syncResults,
          p.1 = c ∧ p.2 = false := by
  constructor
  · simp only [Start, startAndWaitForCacheSync, List.append_eq_nil, List.map_eq_nil_iff,
      List.filter_eq_nil_iff, Bool.not_eq_true, ← List.forall_mem_append]
    constructor
    · intro h p hp
      have := h p hp
      simpa using this
    · intro h p hp
      simp [h p hp]
  · intro c
    simp only [Start, startAndWaitForCacheSync, List.mem_append, List.mem_map,
      List.mem_filter, CacheSyncError.mk.injEq]
    constructor
    · rintro (⟨p, ⟨hp, hfalse⟩, hname⟩ | ⟨p, ⟨hp, hfalse⟩, hname⟩)
      · exact ⟨p, Or.inl hp, hname, by simpa using hfalse⟩
      · exact ⟨p, Or.inr hp, hname, by simpa using hfalse⟩
    · rintro ⟨p, hp | hp, hname, hfalse⟩
      · exact Or.inl ⟨p, ⟨hp, by simp [hfalse]⟩, hname⟩
      · exact Or.inr ⟨p, ⟨hp, by simp [hfalse]⟩, hname⟩

/-- C8 witness: two factories whose caches all synced yield a nil error. -/
theorem c8_start_sync_aggregation_witness :
    Start (InformerFactory.mk [("*v1.Secret", true)])
      (InformerFactory.mk [("*v1.Service", true)]) = [] :=
  (c8_start_sync_aggregation (InformerFactory.mk [("*v1.Secret", true)])
    (InformerFactory.mk [("*v1.Service", true)])).1.mpr (by decide)

end TSDNSProxy
